import Mathlib

set_option maxHeartbeats 1000000
set_option maxRecDepth 10000

/-!
Verification of the windowed narrative-analysis scripts of the
Detetor-de-narrativas repository.  Python functions are shallowly
embedded as Lean definitions: word lists become `List` values, floats
become `ℚ` (all arithmetic in the scripts is exact on the inputs we
reason about), Python exceptions become `Except`, and `dict`s become
association lists.
-/

namespace Detetor

/-! Section: Tokenizer/Windower

`dividir_e_analisar` (src/detector_virada.py, lines 41-69) and
`contar_muletas` (src/contador_vicios.py, lines 35-81) both window a
word list with the loop `for i in range(0, len(palavras), tamanho_janela)`,
emitting for each `i` a record with `janela = i // tamanho_janela`,
word offset `i`, and the slice `palavras[i:i+tamanho_janela]`.
-/

/-- One window produced by the windowing loop: its 0-based index
(`janela`), the offset of its first word (`inicio_palavra`), and its
tokens (`palavras[i:i+tamanho_janela]`). -/
structure Janela (α : Type) where
  janela : Nat
  inicio_palavra : Nat
  tokens : List α
deriving Repr, DecidableEq

/-- The windowing loop of `dividir_e_analisar` / `contar_muletas`,
started at word offset `i`.  For step `w > 0`, `range(i, n, w)` visits
`i, i+w, ...` while words remain; an empty word list or a zero step
yields no iterations here (the zero-step `ValueError` of `range` is
handled in the callers `dividirEAnalisar` / `contarMuletas` below). -/
def janelasDesde : List α → Nat → Nat → List (Janela α)
  | [], _, _ => []
  | _ :: _, 0, _ => []
  | p :: ps, w + 1, i =>
    ⟨i / (w + 1), i, (p :: ps).take (w + 1)⟩ ::
      janelasDesde ((p :: ps).drop (w + 1)) (w + 1) (i + (w + 1))
termination_by palavras _ _ => palavras.length
decreasing_by
  simp only [List.drop_succ_cons, List.length_drop, List.length_cons]
  omega

/-- All windows of a word list, exactly as the loop
`for i in range(0, len(palavras), tamanho_janela)` produces them. -/
def janelas (palavras : List α) (w : Nat) : List (Janela α) :=
  janelasDesde palavras w 0

/-! Section: Change-point detector

`detectar_pontos_de_virada` (src/detector_virada.py, lines 72-94)
receives the DataFrame built by `dividir_e_analisar`, whose row `j`
holds `janela = j` and the compound sentiment `pontuacao_composta` of
window `j`.  We embed the series of `pontuacao_composta` values as a
`List ℚ` and mirror the pandas steps: the `diff().abs()` column (NaN
at row 0 becomes `none`), the `> limite_mudanca` row selection, the
index shift `index - 1`, the `shift(-1)` lookup that fills
`pontuacao_no_ponto_virada`, and the final `dropna`.
-/

/-- One row of the DataFrame returned by `detectar_pontos_de_virada`:
the (shifted) pandas index, the `janela` column, the window's own
score, the absolute change `mudanca`, and the looked-up
`pontuacao_no_ponto_virada`. -/
structure LinhaVirada where
  idx : Nat
  janela : Nat
  pontuacao_composta : ℚ
  mudanca : ℚ
  pontuacao_no_ponto_virada : ℚ
deriving Repr, DecidableEq

/-- Column `df['pontuacao_composta'].diff().abs()` at row `j`: `none` models
the NaN of row 0, row `k+1` holds `|s[k+1] - s[k]|`. -/
def mudancaAbs (s : List ℚ) : Nat → Option ℚ
  | 0 => none
  | k + 1 => some |s.getD (k + 1) 0 - s.getD k 0|

/-- Row selection `df[df['mudanca'] > limite_mudanca]`: the surviving
pandas indices with their `mudanca` values (row 0 holds NaN and a NaN
comparison is false, so it never survives). -/
def viradasSelecionadas (s : List ℚ) (limite : ℚ) : List (Nat × ℚ) :=
  (List.range s.length).filterMap (fun j =>
    match mudancaAbs s j with
    | none => none
    | some d => if d > limite then some (j, d) else none)

/-- Step `pontos_virada.index = pontos_virada.index - 1` together with the
row's columns: `(shifted index, janela, pontuacao_composta, mudanca)`. -/
def viradasAjustadas (s : List ℚ) (limite : ℚ) : List (Nat × Nat × ℚ × ℚ) :=
  (viradasSelecionadas s limite).map
    (fun jd => (jd.1 - 1, jd.1, s.getD jd.1 0, jd.2))

/-- Function `detectar_pontos_de_virada(df, limite_mudanca)`: attach
`pontuacao_composta.shift(-1)` evaluated at the shifted index (`none`
models the trailing NaN of `shift(-1)`) and `dropna` on that column. -/
def detectarPontosDeVirada (s : List ℚ) (limite : ℚ) : List LinhaVirada :=
  (viradasAjustadas s limite).filterMap (fun r =>
    match s[r.1 + 1]? with
    | none => none
    | some v => some ⟨r.1, r.2.1, r.2.2.1, r.2.2.2, v⟩)

/-! Section: Character helpers

The scripts run Python string/regex operations on Portuguese text.
We model them over `List Char`, covering ASCII plus the accented
Latin letters that occur in the scripts' word lists and patterns
(Python's Unicode `str.lower` and `\w`/`\s` agree with these
definitions on that alphabet).
-/

/-- Python `str.lower` on the covered alphabet. -/
def minusculaChar (c : Char) : Char :=
  if 'A' ≤ c ∧ c ≤ 'Z' then Char.ofNat (c.toNat + 32)
  else if c = 'Á' then 'á' else if c = 'À' then 'à' else if c = 'Â' then 'â'
  else if c = 'Ã' then 'ã' else if c = 'É' then 'é' else if c = 'Ê' then 'ê'
  else if c = 'Í' then 'í' else if c = 'Ó' then 'ó' else if c = 'Ô' then 'ô'
  else if c = 'Õ' then 'õ' else if c = 'Ú' then 'ú' else if c = 'Ü' then 'ü'
  else if c = 'Ç' then 'ç' else c

/-- Python `str.lower` on a whole string. -/
def minuscula (texto : String) : String :=
  ⟨texto.data.map minusculaChar⟩

/-- Python `str.strip()`: drop whitespace from both ends (modelled
over the character list, since `String.trim`'s byte-level
implementation does not reduce in proofs). -/
def aparar (s : String) : String :=
  ⟨((s.data.dropWhile Char.isWhitespace).reverse.dropWhile
      Char.isWhitespace).reverse⟩

/-- Python regex `\w` (word character) on the covered alphabet. -/
def ehCaractereDePalavra (c : Char) : Bool :=
  ('a' ≤ c && c ≤ 'z') || ('A' ≤ c && c ≤ 'Z') || ('0' ≤ c && c ≤ '9') ||
    c == '_' ||
    ['á', 'à', 'â', 'ã', 'é', 'ê', 'í', 'ó', 'ô', 'õ', 'ú', 'ü', 'ç',
      'Á', 'À', 'Â', 'Ã', 'É', 'Ê', 'Í', 'Ó', 'Ô', 'Õ', 'Ú', 'Ü', 'Ç'].contains c

/-- Is the character at position `i` (if any) a word character? -/
def palavraEm (t : List Char) (i : Nat) : Bool :=
  match t[i]? with
  | some c => ehCaractereDePalavra c
  | none => false

/-- Python regex `\b` at string position `i`: a word character on
exactly one side of the position (out of range counts as non-word). -/
def ehLimite (t : List Char) (i : Nat) : Bool :=
  (if i = 0 then false else palavraEm t (i - 1)) != palavraEm t i

/-! Section: Word-boundary pattern counting

`contar_muletas` (src/contador_vicios.py, lines 51-72) counts each
filler pattern with `len(re.findall(r'\b' + re.escape(muleta) + r'\b',
texto))`: the escaped pattern is a literal, so a match at position `i`
is exactly "the literal occurs at `i` and both ends sit on a word
boundary", and `findall` scans left to right counting non-overlapping
matches.
-/

/-- Does the literal pattern `m`, wrapped in `\b ... \b`, match at
position `i` of `t`? -/
def casaEm (t m : List Char) (i : Nat) : Bool :=
  decide ((t.drop i).take m.length = m) && ehLimite t i && ehLimite t (i + m.length)

/-- The left-to-right non-overlapping scan of `re.findall`, with fuel
(one unit per scan position). -/
def contarAux (t m : List Char) : Nat → Nat → Nat
  | 0, _ => 0
  | fuel + 1, i =>
    if i > t.length then 0
    else if casaEm t m i then 1 + contarAux t m fuel (i + max m.length 1)
    else contarAux t m fuel (i + 1)

/-- Count `len(re.findall(r'\b' + re.escape(m) + r'\b', t))`. -/
def contarOcorrencias (t m : List Char) : Nat :=
  contarAux t m (t.length + 1) 0

/-! Section: The windowing entry points, with Python error behavior

`dividir_e_analisar` (src/detector_virada.py, lines 41-69) and
`contar_muletas` (src/contador_vicios.py, lines 35-83).  Python's
`range(0, n, step)` raises `ValueError` when `step == 0` (before
looking at the bounds) and is empty when `step < 0`; we model the
raise with `Except.error`.  The VADER sentiment score attached to each
window is an external opaque scorer, so `dividirEAnalisar` returns the
windows themselves; `contarMuletas` returns the overall per-pattern
counts and the per-window rows `(janela, count, frequency per 1000
words)` — the rounded relative-frequency column and the descending
sort of the overall table are presentation-only and not modelled. -/

/-- Python `texto.replace('\n', ' ').split()`: words are maximal runs
of non-whitespace. -/
def dividirEmPalavras (texto : String) : List String :=
  ((texto.replace "\n" " ").split Char.isWhitespace).filter (fun p => p ≠ "")

/-- Function `dividir_e_analisar(texto, tamanho_janela)`. -/
def dividirEAnalisar (texto : String) (tamanho_janela : Int) :
    Except String (List (Janela String)) :=
  if texto = "" ∨ ((aparar texto).length : Int) < tamanho_janela then .ok []
  else
    let palavras := dividirEmPalavras texto
    if tamanho_janela = 0 then .error "ValueError: range() arg 3 must not be zero"
    else if tamanho_janela < 0 then .ok []
    else .ok (janelas palavras tamanho_janela.toNat)

/-- The count of one window's row in `contar_muletas`: filler matches
summed over the lookup list on the window's joined text. -/
def contagemJanela (janela_texto : String) (lista : List String) : Nat :=
  (lista.map (fun muleta => contarOcorrencias janela_texto.data muleta.data)).sum

/-- One per-window row of `contar_muletas`. -/
def linhaJanelaMuletas (lista : List String) (j : Janela String) : Nat × Nat × ℚ :=
  let c := contagemJanela (String.intercalate " " j.tokens) lista
  (j.janela, c,
    if j.tokens.length > 0 then (c : ℚ) / j.tokens.length * 1000 else 0)

/-- Function `contar_muletas(texto, lista_muletas, tamanho_janela)`. -/
def contarMuletas (texto : String) (lista : List String) (tamanho_janela : Int) :
    Except String (List (String × Nat) × List (Nat × Nat × ℚ)) :=
  if texto = "" then .ok ([], [])
  else
    let texto_normalizado := minuscula texto
    let palavras := dividirEmPalavras texto_normalizado
    let geral := lista.map (fun muleta =>
      (muleta, contarOcorrencias texto_normalizado.data muleta.data))
    if tamanho_janela = 0 then .error "ValueError: range() arg 3 must not be zero"
    else if tamanho_janela < 0 then .ok (geral, [])
    else .ok (geral,
      (janelas palavras tamanho_janela.toNat).map (linhaJanelaMuletas lista))

/-! Section: Monotony classifier

`medir_monotonia` (src/monotonia_analisador.py, lines 60-93)
classifies a paragraph from its rhythm index `ir` (population standard
deviation of sentence lengths over their mean, computed upstream) and
its switch count `sw`, through an ordered `if/elif` band table.
-/

/-- Sentence-length category (`cat` inside `medir_monotonia`):
short / medium / long. -/
def categoriaFrase (n : Nat) : String :=
  if n < 10 then "C" else if n ≤ 20 then "M" else "L"

/-- The switch index `sw`: how many adjacent sentence pairs change
category. -/
def alternancia (tamanhos : List Nat) : Nat :=
  let cats := tamanhos.map categoriaFrase
  ((cats.zip cats.tail).filter (fun p => p.1 ≠ p.2)).length

/-- The ordered classification bands of `medir_monotonia` (lines
84-91): the first matching predicate wins and evaluation stops. -/
def nivelMonotonia (ir : ℚ) (sw : Nat) : String :=
  if ir < 15/100 ∧ sw ≤ 1 then "Monótono"
  else if ir < 30/100 then "Ritmo moderado"
  else if ir < 55/100 then "Variado"
  else "Irregular"

/-! Section: Composite FRENÊSI score

`frenesi_score` (src/frenesi_literario_ultra.py, lines 338-391) reads
metric values from a Python `dict` with `stats.get(key, 0)`, starts
from the baseline 50.0, applies six independent additive rule
adjustments, writes the single key `'ratio_verbos_fortes'` into the
dict it received, and clamps the result into [0, 100].  The dict is
an association list with unique keys; `stats.get` with default and
the in-place key write are `obter` and `atribuir`.  The reads after
the write (`adv_mente` onwards in the source) are modelled as reads
of the written dict, exactly as Python executes them.
-/

/-- A Python stats dict: insertion-ordered association list. -/
abbrev DicionarioStats := List (String × ℚ)

/-- Read `stats.get(chave, padrao)`. -/
def obter (stats : DicionarioStats) (chave : String) (padrao : ℚ) : ℚ :=
  match stats with
  | [] => padrao
  | (k, v) :: resto => if k = chave then v else obter resto chave padrao

/-- Write `stats[chave] = valor`: update in place if the key exists,
else append (Python dicts keep insertion order). -/
def atribuir (stats : DicionarioStats) (chave : String) (valor : ℚ) :
    DicionarioStats :=
  if (stats.map Prod.fst).contains chave then
    stats.map (fun kv => if kv.1 = chave then (chave, valor) else kv)
  else stats ++ [(chave, valor)]

/-- TTR rule: `if 0.20 <= ttr <= 0.40: +10 elif ttr < 0.18 or
ttr > 0.45: -5`. -/
def ajusteTTR (ttr : ℚ) : ℚ :=
  if 20/100 ≤ ttr ∧ ttr ≤ 40/100 then 10
  else if ttr < 18/100 ∨ ttr > 45/100 then -5 else 0

/-- MTLD rule: `if mtld >= 50: +10 elif mtld < 30: -5`. -/
def ajusteMTLD (mtld : ℚ) : ℚ :=
  if 50 ≤ mtld then 10 else if mtld < 30 then -5 else 0

/-- The strong-verb ratio: `vf / total_v if total_v > 0 else 0`. -/
def razaoVerbosFortes (vf vfr : ℚ) : ℚ :=
  if vf + vfr > 0 then vf / (vf + vfr) else 0

/-- Verb rule: `if ratio >= 0.25: +10 elif ratio < 0.10 and
total_v > 0: -10`. -/
def ajusteVerbos (vf vfr : ℚ) : ℚ :=
  if 25/100 ≤ razaoVerbosFortes vf vfr then 10
  else if razaoVerbosFortes vf vfr < 10/100 ∧ vf + vfr > 0 then -10 else 0

/-- Adverb rule: `adv_pct = adv_mente / max(total_palavras, 1);
if adv_pct > 0.03: -5`. -/
def ajusteAdverbios (adv_mente total_palavras : ℚ) : ℚ :=
  if adv_mente / max total_palavras 1 > 3/100 then -5 else 0

/-- Repetition rule: `if rep < 0.78: +5 elif rep > 0.88: -5`. -/
def ajusteRepeticao (rep : ℚ) : ℚ :=
  if rep < 78/100 then 5 else if rep > 88/100 then -5 else 0

/-- Mean-sentence-length rule: `if 12 <= tmf <= 24: +5 elif tmf > 32
or tmf < 8: -5`. -/
def ajusteTamanhoFrase (tmf : ℚ) : ℚ :=
  if 12 ≤ tmf ∧ tmf ≤ 24 then 5
  else if tmf > 32 ∨ tmf < 8 then -5 else 0

/-- The value written into `stats['ratio_verbos_fortes']`. -/
def ratioVerbosFortes (stats : DicionarioStats) : ℚ :=
  razaoVerbosFortes (obter stats "verbos_fortes" 0) (obter stats "verbos_fracos" 0)

/-- The raw (pre-clamp) score: baseline 50.0 plus the six sequential
`score +=` adjustments; the last four reads happen after the
`ratio_verbos_fortes` write, as in the source. -/
def notaBruta (stats : DicionarioStats) : ℚ :=
  let stats2 := atribuir stats "ratio_verbos_fortes" (ratioVerbosFortes stats)
  50 + ajusteTTR (obter stats "ttr" 0)
    + ajusteMTLD (obter stats "mtld" 0)
    + ajusteVerbos (obter stats "verbos_fortes" 0) (obter stats "verbos_fracos" 0)
    + ajusteAdverbios (obter stats2 "adv_mente" 0) (obter stats2 "total_palavras" 0)
    + ajusteRepeticao (obter stats2 "indice_repeticao" 0)
    + ajusteTamanhoFrase (obter stats2 "tamanho_medio_frase" 0)

/-- Function `frenesi_score(stats)`: the clamped score `max(0.0, min(100.0,
score))` together with the mutated dict. -/
def frenesi_score (stats : DicionarioStats) : ℚ × DicionarioStats :=
  (max 0 (min 100 (notaBruta stats)),
    atribuir stats "ratio_verbos_fortes" (ratioVerbosFortes stats))

/-- The keys `frenesi_score` reads with `stats.get`. -/
def chavesLidas : List String :=
  ["ttr", "mtld", "verbos_fortes", "verbos_fracos", "adv_mente",
    "total_palavras", "indice_repeticao", "tamanho_medio_frase"]

/-! Section: Chapter statistics aggregation

`analisar_capitulo` (src/analise_capitulos_avancada.py, lines 156-207)
produces per-chapter stats whose ratio fields are derived from the
counts (lines 186-192); `salvar_relatorio` (lines 242-267) aggregates
them by summing **every** numeric field — ratios included — and then
overwriting every ratio field with the value recomputed from the
summed numerator and denominator, with `0.0` on a zero denominator.
The POS counts themselves come from the external spaCy annotator, so
chapters enter the model as their count/ratio records.
-/

/-- The numeric fields of one chapter's stats dict (all become floats
in the `defaultdict(float)` aggregation). -/
structure EstatisticasCapitulo where
  tokens : ℚ
  substantivos_total : ℚ
  substantivos_abstratos : ℚ
  substantivos_concretos : ℚ
  pct_abstratos : ℚ
  pct_concretos : ℚ
  verbos_total : ℚ
  verbos_gerundio : ℚ
  pct_gerundio : ℚ
  densidade_verbal_pct : ℚ
  nominalizacoes : ℚ
  nominalizacoes_por_10k : ℚ
deriving Repr, DecidableEq

/-- Function `analisar_capitulo`'s ratio derivations (lines 186-192) from the
chapter's counts: each percentage is `num / den * scale if den else
0.0`. -/
def estatisticasDeContagens (tokens subst abstr concr verbos ger nomin : Nat) :
    EstatisticasCapitulo where
  tokens := tokens
  substantivos_total := subst
  substantivos_abstratos := abstr
  substantivos_concretos := concr
  pct_abstratos := if subst ≠ 0 then (abstr : ℚ) / subst * 100 else 0
  pct_concretos := if subst ≠ 0 then (concr : ℚ) / subst * 100 else 0
  verbos_total := verbos
  verbos_gerundio := ger
  pct_gerundio := if verbos ≠ 0 then (ger : ℚ) / verbos * 100 else 0
  densidade_verbal_pct := if tokens ≠ 0 then (verbos : ℚ) / tokens * 100 else 0
  nominalizacoes := nomin
  nominalizacoes_por_10k := if tokens ≠ 0 then (nomin : ℚ) / tokens * 10000 else 0

/-- The all-zero `defaultdict(float)` start value. -/
def estatZero : EstatisticasCapitulo :=
  ⟨0, 0, 0, 0, 0, 0, 0, 0, 0, 0, 0, 0⟩

/-- One step of `glob[k] += v` over every numeric field of a chapter's
stats — including the ratio fields. -/
def somaPasso (g st : EstatisticasCapitulo) : EstatisticasCapitulo where
  tokens := g.tokens + st.tokens
  substantivos_total := g.substantivos_total + st.substantivos_total
  substantivos_abstratos := g.substantivos_abstratos + st.substantivos_abstratos
  substantivos_concretos := g.substantivos_concretos + st.substantivos_concretos
  pct_abstratos := g.pct_abstratos + st.pct_abstratos
  pct_concretos := g.pct_concretos + st.pct_concretos
  verbos_total := g.verbos_total + st.verbos_total
  verbos_gerundio := g.verbos_gerundio + st.verbos_gerundio
  pct_gerundio := g.pct_gerundio + st.pct_gerundio
  densidade_verbal_pct := g.densidade_verbal_pct + st.densidade_verbal_pct
  nominalizacoes := g.nominalizacoes + st.nominalizacoes
  nominalizacoes_por_10k := g.nominalizacoes_por_10k + st.nominalizacoes_por_10k

/-- The summed `glob` dict before the ratio fix-up. -/
def somaCampos (caps : List EstatisticasCapitulo) : EstatisticasCapitulo :=
  caps.foldl somaPasso estatZero

/-- Function `salvar_relatorio`'s global aggregation (lines 245-267): sum every
field, then recompute every ratio field from the summed numerator and
denominator (`0.0` whenever the summed denominator is zero). -/
def agregarGlobais (caps : List EstatisticasCapitulo) : EstatisticasCapitulo :=
  let g := somaCampos caps
  { g with
    pct_abstratos := if g.substantivos_total ≠ 0 then
      g.substantivos_abstratos / g.substantivos_total * 100 else 0
    pct_concretos := if g.substantivos_total ≠ 0 then
      g.substantivos_concretos / g.substantivos_total * 100 else 0
    densidade_verbal_pct := if g.tokens ≠ 0 then
      g.verbos_total / g.tokens * 100 else 0
    nominalizacoes_por_10k := if g.tokens ≠ 0 then
      g.nominalizacoes / g.tokens * 10000 else 0
    pct_gerundio := if g.verbos_total ≠ 0 then
      g.verbos_gerundio / g.verbos_total * 100 else 0 }

/-! Section: Proper-name consistency checker

`verificar_consistencia_nomes` (src/verificador_nomes.py, lines
28-71): find capitalized words with
`re.findall(r'\b[A-Z][a-z]{2,}(?:\s[A-Z][a-z]{2,})*\b', texto)`,
group them by lowercased base form (skipping bases shorter than 4),
and keep the groups with at least `min_ocorrencias` total occurrences
and more than one distinct spelling.  The regex classes `[A-Z]` and
`[a-z]` are plain ASCII ranges; `\b`/`\s` are as above.  The matcher
below realizes the regex's backtracking outcome: a greedy lowercase
run followed by a word character fails that word entirely (shrinking
the run still leaves two adjacent word characters), in which case the
star drops the repetition and the match ends after the previous word.
-/

def ehMaiusculaAscii (c : Char) : Bool := 'A' ≤ c && c ≤ 'Z'

def ehMinusculaAscii (c : Char) : Bool := 'a' ≤ c && c ≤ 'z'

/-- Python regex `\s` (ASCII part). -/
def ehEspacoRegex (c : Char) : Bool :=
  c == ' ' || c == '\t' || c == '\n' || c == '\r' ||
    c.toNat == 11 || c.toNat == 12

/-- One `[A-Z][a-z]{2,}` word: a capital, then the greedy lowercase
run, requiring at least two lowercase letters. -/
def casaPalavraCapitalizada : List Char → Option (List Char × List Char)
  | [] => none
  | c :: resto =>
    if ehMaiusculaAscii c then
      let minus := resto.takeWhile ehMinusculaAscii
      if 2 ≤ minus.length then
        some (c :: minus, resto.dropWhile ehMinusculaAscii)
      else none
    else none

/-- Does the remaining text start with a word character?  If so, a
match ending right here would fail its closing `\b`. -/
def comecaComPalavra (t : List Char) : Bool := palavraEm t 0

/-- The greedy `(?:\s[A-Z][a-z]{2,})*` extension: keep appending
`whitespace + capitalized word` while each word is followed by a
non-word character; a repetition that fails is dropped (regex
backtracking) and the match ends after the previous word. -/
def estendeNome : Nat → List Char → List Char → List Char × List Char
  | 0, acc, resto => (acc, resto)
  | fuel + 1, acc, resto =>
    match resto with
    | [] => (acc, resto)
    | sp :: resto2 =>
      if ehEspacoRegex sp then
        match casaPalavraCapitalizada resto2 with
        | some (w, resto3) =>
          if comecaComPalavra resto3 then (acc, resto)
          else estendeNome fuel (acc ++ sp :: w) resto3
        | none => (acc, resto)
      else (acc, resto)

/-- A full `[A-Z][a-z]{2,}(?:\s[A-Z][a-z]{2,})*\b` match attempt at
the head of `t` (the leading `\b` is checked by the scanner): the
first word must be followed by a non-word character, else the whole
attempt fails. -/
def casaNomeProprio (t : List Char) : Option (List Char × List Char) :=
  match casaPalavraCapitalizada t with
  | none => none
  | some (w, resto) =>
    if comecaComPalavra resto then none
    else some (estendeNome resto.length w resto)

/-- The `re.findall` scan: try a match wherever the leading `\b`
holds (previous character absent or non-word), resume after each
match, else advance one character. -/
def encontrarNomesAux : Nat → Option Char → List Char → List (List Char)
  | 0, _, _ => []
  | fuel + 1, anterior, t =>
    let limiteOk := match anterior with
      | none => true
      | some c => !(ehCaractereDePalavra c)
    match (if limiteOk then casaNomeProprio t else none) with
    | some (nome, resto) => nome :: encontrarNomesAux fuel nome.getLast? resto
    | none =>
      match t with
      | [] => []
      | c :: resto => encontrarNomesAux fuel (some c) resto

/-- Scan `re.findall(padrao_nomes, texto)`. -/
def encontrarNomes (t : List Char) : List (List Char) :=
  encontrarNomesAux (t.length + 1) none t

/-- Update `variantes[nome_base][nome] += 1` (inner dict). -/
def incrementaVariante : List (String × Nat) → String → List (String × Nat)
  | [], v => [(v, 1)]
  | (x, n) :: resto, v =>
    if x = v then (x, n + 1) :: resto else (x, n) :: incrementaVariante resto v

/-- Update `variantes[nome_base][nome] += 1` (outer dict). -/
def adicionaVariante :
    List (String × List (String × Nat)) → String → String →
      List (String × List (String × Nat))
  | [], base, v => [(base, [(v, 1)])]
  | (b, vs) :: resto, base, v =>
    if b = base then (b, incrementaVariante vs v) :: resto
    else (b, vs) :: adicionaVariante resto base v

/-- The grouping loop: `variantes[nome.lower()][nome] += 1`, skipping
bases shorter than 4 characters. -/
def agrupaVariantes (nomes : List String) :
    List (String × List (String × Nat)) :=
  nomes.foldl (fun acc nome =>
    let nome_base := minuscula nome
    if nome_base.length < 4 then acc
    else adicionaVariante acc nome_base nome) []

/-- Function `verificar_consistencia_nomes(texto, min_ocorrencias)`. -/
def verificarConsistenciaNomes (texto : String) (min_ocorrencias : Nat) :
    List (String × List (String × Nat)) :=
  if texto = "" then []
  else
    let nomes := (encontrarNomes texto.data).map String.mk
    (agrupaVariantes nomes).filter (fun g =>
      decide (¬ (g.2.map Prod.snd).sum < min_ocorrencias) &&
        decide (g.2.length > 1))

/-- A concrete text realizing the spec's name-consistency scenario:
the spelling `Kaelin` 9 times, `kaelin` once, `Bryn` twice and
`Brynn` once, all as whole words. -/
def textoCenarioNomes : String :=
  "Kaelin viu. Kaelin saiu. Kaelin caiu. Kaelin riu. Kaelin parou. " ++
  "Kaelin voltou. Kaelin sumiu. Kaelin gritou. Kaelin dormiu. " ++
  "O bravo kaelin fugiu. Bryn veio. Bryn partiu. Brynn ficou."

/-! Section: Chapter splitter

`split_capitulos` (src/analise_capitulos_avancada.py, lines 47-73)
runs `re.split(r'(?im)^(cap[íi]tulo[^\n]*)', texto)`: every line whose
case-folded text starts with `capítulo`/`capitulo` is a heading, the
capture makes `re.split` return
`[before, heading1, body1, heading2, body2, ...]`, and the function
turns that into segments, stripping each part.  We model the text as
its list of lines; the parts produced below differ from the raw
`re.split` substrings only in the placement of the newline characters
at their edges, which the function's `.strip()` calls erase.
-/

/-- Is this line a chapter heading (`(?im)^cap[íi]tulo[^\n]*`)?  The
`i` flag case-folds, and `[^\n]*` extends the match to the line end. -/
def ehCabecalhoCapitulo (linha : String) : Bool :=
  let l := linha.data.map minusculaChar
  l.take 8 == "capítulo".data || l.take 8 == "capitulo".data

/-- Split `re.split` over the lines: the interleaved
`[before, heading, body, heading, body, ...]` parts. -/
def partesSplit : List String → List String
  | [] => [""]
  | l :: ls =>
    if ehCabecalhoCapitulo l then
      "" :: l :: partesSplit ls
    else
      match partesSplit ls with
      | [] => [l ++ "\n"]
      | p :: ps => (l ++ "\n" ++ p) :: ps

/-- One segment produced by the splitter. -/
structure Capitulo where
  titulo : String
  texto : String
deriving Repr, DecidableEq

/-- The `while idx < len(partes) - 1` loop: consume
`(titulo, corpo)` pairs, stripping both. -/
def paresCapitulos : List String → List Capitulo
  | t :: c :: resto => ⟨aparar t, aparar c⟩ :: paresCapitulos resto
  | _ => []

/-- Function `split_capitulos(texto)` over the text's lines. -/
def split_capitulos (linhas : List String) : List Capitulo :=
  let partes := partesSplit linhas
  if partes.length ≤ 1 then
    [⟨"Texto completo", aparar (String.intercalate "\n" linhas)⟩]
  else
    let prefixo := aparar (partes.headD "")
    let iniciais := if prefixo ≠ "" then [(⟨"Pré-texto", prefixo⟩ : Capitulo)] else []
    iniciais ++ paresCapitulos (partes.drop 1)

/-- The body shape `partesSplit` builds between two headings: the
lines each followed by their newline (`re.split` keeps the newline
that terminates each body line inside the part). -/
def juntarCauda : List String → String
  | [] => ""
  | l :: ls => l ++ "\n" ++ juntarCauda ls

/-- The canonical newline join of a run of lines (what the body text
reads as before stripping). -/
def juntarLinhas : List String → String
  | [] => ""
  | [l] => l
  | l :: l2 :: ls => l ++ "\n" ++ juntarLinhas (l2 :: ls)

/-- The segments exactly as the claim words them, read off the input
lines: each heading line yields one segment whose title is that
heading line (stripped) and whose text is the stripped run of lines
up to the next heading. -/
def segmentosEsperados : List String → List Capitulo
  | [] => []
  | l :: ls =>
    if ehCabecalhoCapitulo l then
      ⟨aparar l,
        aparar (juntarLinhas (ls.takeWhile (fun x => !ehCabecalhoCapitulo x)))⟩
        :: segmentosEsperados ls
    else segmentosEsperados ls

/-! Section: Theorems -/

/-- The windows concatenate back to the original word list: windowing
is contiguous, non-overlapping, in order, and loses or duplicates no
token. -/
theorem janelasDesde_join (palavras : List α) (w i : Nat) (hw : w ≠ 0) :
    ((janelasDesde palavras w i).map Janela.tokens).flatten = palavras := by
  induction palavras, w, i using janelasDesde.induct with
  | case1 w i => simp [janelasDesde]
  | case2 p ps i => exact absurd rfl hw
  | case3 p ps w i ih =>
    rw [janelasDesde]
    simp only [List.map_cons, List.flatten_cons]
    rw [ih (Nat.succ_ne_zero w)]
    exact List.take_append_drop (w + 1) (p :: ps)

/-- Token counts of the windows sum to the length of the input:
no token is duplicated or lost, the trailing partial window included. -/
theorem janelasDesde_sum_counts (palavras : List α) (w i : Nat) (hw : w ≠ 0) :
    ((janelasDesde palavras w i).map (fun j => j.tokens.length)).sum
      = palavras.length := by
  have h := congrArg List.length (janelasDesde_join palavras w i hw)
  simp only [List.length_flatten, List.map_map, Function.comp] at h
  exact h

/-- Shifting the starting offset by one window size shifts every
emitted window's index by one and its offset by `w`. -/
theorem janelasDesde_shift (palavras : List α) (w i : Nat) :
    janelasDesde palavras w (i + w) =
      (janelasDesde palavras w i).map
        (fun j => ⟨j.janela + 1, j.inicio_palavra + w, j.tokens⟩) := by
  induction palavras, w, i using janelasDesde.induct with
  | case1 w i => simp [janelasDesde]
  | case2 p ps i => simp [janelasDesde]
  | case3 p ps w i ih =>
    rw [janelasDesde, janelasDesde, ih]
    simp [Nat.add_div_right i (Nat.succ_pos w)]

/-- Window indices are exactly the sequential 0-based positions
`0, 1, 2, ...`. -/
theorem janelas_map_janela_aux (n : Nat) :
    ∀ (palavras : List α) (w : Nat), palavras.length ≤ n →
      (janelasDesde palavras w 0).map Janela.janela
        = List.range (janelasDesde palavras w 0).length := by
  induction n with
  | zero =>
    intro palavras w h
    have hnil : palavras = [] := List.eq_nil_of_length_eq_zero (Nat.le_zero.mp h)
    subst hnil
    simp [janelasDesde]
  | succ n ih =>
    intro palavras w hl
    match palavras, w with
    | [], _ => simp [janelasDesde]
    | p :: ps, 0 => simp [janelasDesde]
    | p :: ps, w + 1 =>
      rw [janelasDesde]
      have hshift := janelasDesde_shift ((p :: ps).drop (w + 1)) (w + 1) 0
      rw [hshift]
      have hdrop : ((p :: ps).drop (w + 1)).length ≤ n := by
        simp only [List.drop_succ_cons, List.length_drop, List.length_cons] at hl ⊢
        omega
      have hrec := ih ((p :: ps).drop (w + 1)) (w + 1) hdrop
      simp only [List.map_cons, List.map_map, List.length_cons, List.length_map]
      have hcomp :
          (janelasDesde ((p :: ps).drop (w + 1)) (w + 1) 0).map
              (Janela.janela ∘ fun j => Janela.mk (j.janela + 1) (j.inicio_palavra + (w + 1)) j.tokens)
            = ((janelasDesde ((p :: ps).drop (w + 1)) (w + 1) 0).map Janela.janela).map
                (fun m => m + 1) := by
        simp [List.map_map, Function.comp]
      rw [hcomp, hrec, Nat.zero_div]
      rw [List.range_succ_eq_map]

/-- Consecutive windows satisfy the offset invariant
`start_offset (i+1) = start_offset i + token_count i`. -/
theorem janelasDesde_chain_inicio (palavras : List α) (w i : Nat) :
    List.Chain'
      (fun a b : Janela α => b.inicio_palavra = a.inicio_palavra + a.tokens.length)
      (janelasDesde palavras w i) := by
  induction palavras, w, i using janelasDesde.induct with
  | case1 w i => simp [janelasDesde]
  | case2 p ps i => simp [janelasDesde]
  | case3 p ps w i ih =>
    rw [janelasDesde]
    refine List.chain'_cons'.mpr ⟨?_, ih⟩
    intro b hb
    rcases hD : (p :: ps).drop (w + 1) with _ | ⟨q, qs⟩
    · rw [hD] at hb
      simp [janelasDesde] at hb
    · rw [hD, janelasDesde] at hb
      simp only [List.head?_cons, Option.mem_def, Option.some.injEq] at hb
      subst hb
      have hlen : (p :: ps).length - (w + 1) = qs.length + 1 := by
        have := congrArg List.length hD
        simpa [List.length_drop] using this
      simp only [List.length_take, List.length_cons]
      simp only [List.length_cons] at hlen
      omega

/-- Every emitted window is non-empty and holds at most `w` tokens
(the trailing window keeps its true, smaller size). -/
theorem janelasDesde_mem_tokens (palavras : List α) (w i : Nat) :
    ∀ j ∈ janelasDesde palavras w i, j.tokens ≠ [] ∧ j.tokens.length ≤ w := by
  induction palavras, w, i using janelasDesde.induct with
  | case1 w i => simp [janelasDesde]
  | case2 p ps i => simp [janelasDesde]
  | case3 p ps w i ih =>
    rw [janelasDesde]
    intro j hj
    rcases List.mem_cons.mp hj with h | h
    · subst h
      constructor
      · simp [List.take_succ_cons]
      · exact List.length_take_le (w + 1) (p :: ps)
    · exact ih j h

theorem mem_viradasSelecionadas (s : List ℚ) (limite : ℚ) (x : Nat × ℚ) :
    x ∈ viradasSelecionadas s limite ↔
      ∃ k, k + 1 < s.length ∧ |s.getD (k + 1) 0 - s.getD k 0| > limite ∧
        x = (k + 1, |s.getD (k + 1) 0 - s.getD k 0|) := by
  unfold viradasSelecionadas
  rw [List.mem_filterMap]
  constructor
  · rintro ⟨j, hj, hfj⟩
    have hjlen : j < s.length := List.mem_range.mp hj
    match j with
    | 0 => simp [mudancaAbs] at hfj
    | k + 1 =>
      replace hfj :
          (if |s.getD (k + 1) 0 - s.getD k 0| > limite then
            some (k + 1, |s.getD (k + 1) 0 - s.getD k 0|) else none) = some x := hfj
      by_cases hd : |s.getD (k + 1) 0 - s.getD k 0| > limite
      · rw [if_pos hd] at hfj
        exact ⟨k, hjlen, hd, (Option.some.inj hfj).symm⟩
      · rw [if_neg hd] at hfj
        exact absurd hfj (by simp)
  · rintro ⟨k, hk, hd, rfl⟩
    refine ⟨k + 1, List.mem_range.mpr hk, ?_⟩
    show (if |s.getD (k + 1) 0 - s.getD k 0| > limite then
      some (k + 1, |s.getD (k + 1) 0 - s.getD k 0|) else none) = _
    rw [if_pos hd]

/-- Membership characterization: the detector emits exactly one row
for every adjacent pair whose absolute delta strictly exceeds the
threshold, anchored at the later window via the `janela` column, and
the `dropna` never removes a selected row. -/
theorem mem_detectarPontosDeVirada (s : List ℚ) (limite : ℚ) (p : LinhaVirada) :
    p ∈ detectarPontosDeVirada s limite ↔
      ∃ k, k + 1 < s.length ∧ |s.getD (k + 1) 0 - s.getD k 0| > limite ∧
        p = ⟨k, k + 1, s.getD (k + 1) 0,
          |s.getD (k + 1) 0 - s.getD k 0|, s.getD (k + 1) 0⟩ := by
  unfold detectarPontosDeVirada viradasAjustadas
  rw [List.mem_filterMap]
  constructor
  · rintro ⟨r, hr, hfr⟩
    rw [List.mem_map] at hr
    obtain ⟨x, hx, rfl⟩ := hr
    rw [mem_viradasSelecionadas] at hx
    obtain ⟨k, hk, hd, rfl⟩ := hx
    have hlook : s[k + 1]? = some (s.getD (k + 1) 0) := by
      rw [List.getElem?_eq_getElem hk, List.getD_eq_getElem s 0 hk]
    replace hfr :
        (match s[k + 1]? with
          | none => none
          | some v => some (⟨k, k + 1, s.getD (k + 1) 0,
              |s.getD (k + 1) 0 - s.getD k 0|, v⟩ : LinhaVirada)) = some p := hfr
    rw [hlook] at hfr
    exact ⟨k, hk, hd, (Option.some.inj hfr).symm⟩
  · rintro ⟨k, hk, hd, rfl⟩
    have hlook : s[k + 1]? = some (s.getD (k + 1) 0) := by
      rw [List.getElem?_eq_getElem hk, List.getD_eq_getElem s 0 hk]
    refine ⟨(k + 1 - 1, k + 1, s.getD (k + 1) 0, |s.getD (k + 1) 0 - s.getD k 0|),
      ?_, ?_⟩
    · rw [List.mem_map]
      exact ⟨(k + 1, |s.getD (k + 1) 0 - s.getD k 0|),
        (mem_viradasSelecionadas s limite _).mpr ⟨k, hk, hd, rfl⟩, rfl⟩
    · show (match s[k + 1]? with
        | none => none
        | some v => some (⟨k, k + 1, s.getD (k + 1) 0,
            |s.getD (k + 1) 0 - s.getD k 0|, v⟩ : LinhaVirada)) = _
      rw [hlook]

/-- C1: for the metric series `[0.0, 0.39, 0.81]` with threshold 0.4
exactly one turning point is emitted — for windows 1 and 2, with row
`janela = 2`, shifted index 1, delta 0.42 and the metric value 0.81
at window 2 — and none for the sub-threshold first delta; in general
a turning point is emitted for the adjacent pair `(j, j+1)` iff
`|metric[j+1] - metric[j]|` strictly exceeds the threshold, anchored
at `j+1` and carrying the delta and the metric value at `j+1`. -/
theorem claim_C1_change_point_threshold :
    detectarPontosDeVirada [0, 39/100, 81/100] (4/10)
      = [⟨1, 2, 81/100, 42/100, 81/100⟩] ∧
    (∀ (s : List ℚ) (limite : ℚ) (j : Nat), j + 1 < s.length →
      ((∃ p ∈ detectarPontosDeVirada s limite, p.janela = j + 1) ↔
        |s.getD (j + 1) 0 - s.getD j 0| > limite)) ∧
    (∀ (s : List ℚ) (limite : ℚ), ∀ p ∈ detectarPontosDeVirada s limite,
      1 ≤ p.janela ∧ p.janela < s.length ∧ p.idx + 1 = p.janela ∧
      p.mudanca = |s.getD p.janela 0 - s.getD (p.janela - 1) 0| ∧
      p.mudanca > limite ∧
      p.pontuacao_no_ponto_virada = s.getD p.janela 0) := by
  refine ⟨?_, ?_, ?_⟩
  · have m0 : mudancaAbs [0, 39/100, 81/100] 0 = none := rfl
    have m1 : mudancaAbs [0, 39/100, 81/100] 1 = some (39/100) := by
      show some |([0, 39/100, 81/100] : List ℚ).getD 1 0
          - ([0, 39/100, 81/100] : List ℚ).getD 0 0| = _
      norm_num [List.getD_cons_zero, List.getD_cons_succ, abs_of_nonneg]
    have m2 : mudancaAbs [0, 39/100, 81/100] 2 = some (42/100) := by
      show some |([0, 39/100, 81/100] : List ℚ).getD 2 0
          - ([0, 39/100, 81/100] : List ℚ).getD 1 0| = _
      norm_num [List.getD_cons_zero, List.getD_cons_succ, abs_of_nonneg]
    have hsel : viradasSelecionadas [0, 39/100, 81/100] (4/10) = [(2, 42/100)] := by
      unfold viradasSelecionadas
      rw [show ([0, 39/100, 81/100] : List ℚ).length = 3 from rfl,
        show List.range 3 = [0, 1, 2] from rfl]
      simp only [List.filterMap_cons, m0, m1, m2]
      norm_num
    have haj : viradasAjustadas [0, 39/100, 81/100] (4/10)
        = [(1, 2, 81/100, 42/100)] := by
      unfold viradasAjustadas
      rw [hsel]
      norm_num [List.getD_cons_zero, List.getD_cons_succ]
    unfold detectarPontosDeVirada
    rw [haj]
    norm_num [List.filterMap_cons]
  · intro s limite j hj
    constructor
    · rintro ⟨p, hp, hpj⟩
      rw [mem_detectarPontosDeVirada] at hp
      obtain ⟨k, hk, hd, rfl⟩ := hp
      have hkj : k = j := by
        have : k + 1 = j + 1 := hpj
        omega
      subst hkj
      exact hd
    · intro hd
      exact ⟨_, (mem_detectarPontosDeVirada s limite _).mpr ⟨j, hj, hd, rfl⟩, rfl⟩
  · intro s limite p hp
    rw [mem_detectarPontosDeVirada] at hp
    obtain ⟨k, hk, hd, rfl⟩ := hp
    exact ⟨Nat.succ_le_succ (Nat.zero_le k), hk, rfl, rfl, hd, rfl⟩

/-- Witness for C1: on the series `[0.0, 0.39, 0.81]` with threshold
0.4, a turning point is reported at window 2 and none at window 1. -/
theorem claim_C1_change_point_threshold_witness :
    (∃ p ∈ detectarPontosDeVirada [0, 39/100, 81/100] (4/10), p.janela = 2) ∧
    ¬ (∃ p ∈ detectarPontosDeVirada [0, 39/100, 81/100] (4/10), p.janela = 1) := by
  constructor
  · exact (claim_C1_change_point_threshold.2.1 [0, 39/100, 81/100] (4/10) 1
      (by decide)).mpr
      (by norm_num [List.getD_cons_zero, List.getD_cons_succ, abs_of_nonneg])
  · intro h
    exact absurd ((claim_C1_change_point_threshold.2.1 [0, 39/100, 81/100] (4/10) 0
      (by decide)).mp h)
      (by norm_num [List.getD_cons_zero, List.getD_cons_succ, abs_of_nonneg])

/-- C2: for a non-empty word list and window size `w > 0` the windower
emits contiguous, non-overlapping, in-order windows: they concatenate
back to the input, carry the sequential 0-based indices `0, 1, 2, ...`,
each window's start offset is the previous start offset plus its token
count, the token counts sum to the input length (the trailing partial
window included with its true, smaller size), and every window is
non-empty with at most `w` tokens. -/
theorem claim_C2_windowing {α : Type} (palavras : List α) (w : Nat)
    (_hne : palavras ≠ []) (hw : 0 < w) :
    ((janelas palavras w).map Janela.tokens).flatten = palavras ∧
    (janelas palavras w).map Janela.janela
      = List.range (janelas palavras w).length ∧
    List.Chain'
      (fun a b : Janela α => b.inicio_palavra = a.inicio_palavra + a.tokens.length)
      (janelas palavras w) ∧
    ((janelas palavras w).map (fun j => j.tokens.length)).sum = palavras.length ∧
    ∀ j ∈ janelas palavras w, j.tokens ≠ [] ∧ j.tokens.length ≤ w := by
  have hw' : w ≠ 0 := Nat.pos_iff_ne_zero.mp hw
  unfold janelas
  exact ⟨janelasDesde_join palavras w 0 hw',
    janelas_map_janela_aux palavras.length palavras w le_rfl,
    janelasDesde_chain_inicio palavras w 0,
    janelasDesde_sum_counts palavras w 0 hw',
    janelasDesde_mem_tokens palavras w 0⟩

/-- Witness for C2: the word list `[10, 20, 30, 40, 50]` windowed with
`w = 2` (windows `[10,20]`, `[30,40]`, `[50]`). -/
theorem claim_C2_windowing_witness :
    ((janelas ([10, 20, 30, 40, 50] : List Nat) 2).map Janela.tokens).flatten
      = [10, 20, 30, 40, 50] ∧
    (janelas ([10, 20, 30, 40, 50] : List Nat) 2).map Janela.janela
      = List.range (janelas ([10, 20, 30, 40, 50] : List Nat) 2).length ∧
    List.Chain'
      (fun a b : Janela Nat => b.inicio_palavra = a.inicio_palavra + a.tokens.length)
      (janelas ([10, 20, 30, 40, 50] : List Nat) 2) ∧
    ((janelas ([10, 20, 30, 40, 50] : List Nat) 2).map (fun j => j.tokens.length)).sum
      = ([10, 20, 30, 40, 50] : List Nat).length ∧
    ∀ j ∈ janelas ([10, 20, 30, 40, 50] : List Nat) 2,
      j.tokens ≠ [] ∧ j.tokens.length ≤ 2 :=
  claim_C2_windowing [10, 20, 30, 40, 50] 2 (by decide) (by decide)

theorem contarAux_eq_zero (t m : List Char)
    (h : ∀ i, casaEm t m i = false) :
    ∀ fuel i, contarAux t m fuel i = 0 := by
  intro fuel
  induction fuel with
  | zero => intro i; rfl
  | succ n ih =>
    intro i
    rw [contarAux]
    by_cases hi : i > t.length
    · rw [if_pos hi]
    · rw [if_neg hi, h i, if_neg (by simp), ih]


/-- C4 as stated is false: with window size 0 and non-empty input the
guards of `dividir_e_analisar` and `contar_muletas` do not fire, and
`range(0, n, 0)` raises `ValueError` instead of producing zero
windows. -/
theorem claim_C4_counterexample :
    dividirEAnalisar "a a a" 0
      = Except.error "ValueError: range() arg 3 must not be zero" ∧
    contarMuletas "a a a" ["bem"] 0
      = Except.error "ValueError: range() arg 3 must not be zero" := by
  constructor <;> rfl

/-- C4 amended: an empty input, or a strictly negative window size,
produces zero windows and returns normally; but window size exactly 0
with non-empty input raises `ValueError` (Python `range` with zero
step).  The change-point detector applied to fewer than 2 windows
returns an empty result, not an error. -/
theorem claim_C4_degenerate_inputs :
    (∀ (w : Int), dividirEAnalisar "" w = .ok []) ∧
    (∀ (texto : String) (w : Int), w < 0 → dividirEAnalisar texto w = .ok []) ∧
    (∀ (texto : String), texto ≠ "" →
      dividirEAnalisar texto 0
        = .error "ValueError: range() arg 3 must not be zero") ∧
    (∀ (lista : List String) (w : Int), contarMuletas "" lista w = .ok ([], [])) ∧
    (∀ (texto : String) (lista : List String) (w : Int), texto ≠ "" → w < 0 →
      contarMuletas texto lista w
        = .ok (lista.map (fun muleta =>
            (muleta, contarOcorrencias (minuscula texto).data muleta.data)), [])) ∧
    (∀ (texto : String) (lista : List String), texto ≠ "" →
      contarMuletas texto lista 0
        = .error "ValueError: range() arg 3 must not be zero") ∧
    (∀ (s : List ℚ) (limite : ℚ), s.length < 2 →
      detectarPontosDeVirada s limite = []) := by
  refine ⟨?_, ?_, ?_, ?_, ?_, ?_, ?_⟩
  · intro w
    unfold dividirEAnalisar
    rw [if_pos (Or.inl rfl)]
  · intro texto w hw
    have h0 : ¬ w = 0 := by omega
    unfold dividirEAnalisar
    split
    · rfl
    · rfl
  · intro texto htexto
    have hg : ¬(texto = "" ∨ ((aparar texto).length : Int) < 0) := by
      push_neg
      exact ⟨htexto, by omega⟩
    unfold dividirEAnalisar
    rw [if_neg hg, if_pos rfl]
  · intro lista w
    unfold contarMuletas
    rw [if_pos rfl]
  · intro texto lista w htexto hw
    unfold contarMuletas
    rw [if_neg htexto, if_neg (by omega), if_pos hw]
  · intro texto lista htexto
    unfold contarMuletas
    rw [if_neg htexto, if_pos rfl]
  · intro s limite hs
    rw [List.eq_nil_iff_forall_not_mem]
    intro p hp
    rw [mem_detectarPontosDeVirada] at hp
    obtain ⟨k, hk, -, -⟩ := hp
    omega

/-- Witness for C4 (amended): a negative window size returns zero
windows normally, window size 0 on `"a a a"` raises, and a 1-point
series yields no turning points. -/
theorem claim_C4_degenerate_inputs_witness :
    dividirEAnalisar "ola mundo" (-3) = .ok [] ∧
    dividirEAnalisar "a a a" 0
      = .error "ValueError: range() arg 3 must not be zero" ∧
    detectarPontosDeVirada [1] 0 = [] :=
  ⟨claim_C4_degenerate_inputs.2.1 "ola mundo" (-3) (by decide),
    claim_C4_degenerate_inputs.2.2.1 "a a a" (by decide),
    claim_C4_degenerate_inputs.2.2.2.2.2.2 [1] 0 (by decide)⟩

/-- C8: the filler-phrase metric counts only word-boundary matches,
never bare substring occurrences: if every occurrence of the
(non-empty) pattern in the window text sits strictly inside a larger
word — i.e. fails the `\b` test on at least one side — the pattern's
count is 0. -/
theorem claim_C8_word_boundary (t m : List Char) (hm : m ≠ [])
    (hinside : ∀ i, i ≤ t.length → (t.drop i).take m.length = m →
      ¬(ehLimite t i = true ∧ ehLimite t (i + m.length) = true)) :
    contarOcorrencias t m = 0 := by
  have hall : ∀ i, casaEm t m i = false := by
    intro i
    by_cases hi : i ≤ t.length
    · by_cases hsub : (t.drop i).take m.length = m
      · have hnb := hinside i hi hsub
        unfold casaEm
        cases hb1 : ehLimite t i <;> cases hb2 : ehLimite t (i + m.length) <;>
          simp [hsub, hb1, hb2] at hnb ⊢
      · unfold casaEm
        simp [hsub]
    · have hdrop : t.drop i = [] := List.drop_eq_nil_of_le (by omega)
      have hne : ([] : List Char) ≠ m := fun h => hm h.symm
      unfold casaEm
      simp [hdrop, hne]
  unfold contarOcorrencias
  exact contarAux_eq_zero t m hall _ _

/-- Witness for C8: in `"daí vem"`, the pattern `"aí"` occurs only
inside the larger word `"daí"`, so its count is 0. -/
theorem claim_C8_word_boundary_witness :
    "aí".toList ≠ [] ∧ contarOcorrencias "daí vem".toList "aí".toList = 0 :=
  ⟨by decide, claim_C8_word_boundary "daí vem".toList "aí".toList
    (by decide) (by decide)⟩

/-- Updating one key of the dict leaves lookups of other keys
unchanged (in-place-update branch). -/
theorem obter_map_atualiza (stats : DicionarioStats) (k k' : String)
    (v padrao : ℚ) (h : k' ≠ k) :
    obter (stats.map (fun kv => if kv.1 = k then (k, v) else kv)) k' padrao
      = obter stats k' padrao := by
  induction stats with
  | nil => rfl
  | cons kv resto ih =>
    simp only [List.map_cons]
    by_cases hkv : kv.1 = k
    · rw [if_pos hkv]
      show (if k = k' then v
        else obter (resto.map fun kv => if kv.1 = k then (k, v) else kv) k' padrao)
          = (if kv.1 = k' then kv.2 else obter resto k' padrao)
      rw [if_neg (fun hh => h hh.symm), if_neg (hkv ▸ fun hh => h hh.symm)]
      exact ih
    · rw [if_neg hkv]
      show (if kv.1 = k' then kv.2
        else obter (resto.map fun kv => if kv.1 = k then (k, v) else kv) k' padrao)
          = (if kv.1 = k' then kv.2 else obter resto k' padrao)
      by_cases hkv' : kv.1 = k'
      · rw [if_pos hkv', if_pos hkv']
      · rw [if_neg hkv', if_neg hkv']
        exact ih

/-- Appending a fresh key leaves lookups of other keys unchanged. -/
theorem obter_append_unico (stats : DicionarioStats) (k k' : String)
    (v padrao : ℚ) (h : k' ≠ k) :
    obter (stats ++ [(k, v)]) k' padrao = obter stats k' padrao := by
  induction stats with
  | nil =>
    show (if k = k' then v else padrao) = padrao
    rw [if_neg (fun hh => h hh.symm)]
  | cons kv resto ih =>
    show (if kv.1 = k' then kv.2 else obter (resto ++ [(k, v)]) k' padrao)
      = (if kv.1 = k' then kv.2 else obter resto k' padrao)
    by_cases hkv : kv.1 = k'
    · rw [if_pos hkv, if_pos hkv]
    · rw [if_neg hkv, if_neg hkv]
      exact ih

/-- Writing `stats[k] = v` leaves every other key's lookup unchanged. -/
theorem obter_atribuir_ne (stats : DicionarioStats) (k k' : String)
    (v padrao : ℚ) (h : k' ≠ k) :
    obter (atribuir stats k v) k' padrao = obter stats k' padrao := by
  unfold atribuir
  by_cases hc : (stats.map Prod.fst).contains k
  · rw [if_pos hc]
    exact obter_map_atualiza stats k k' v padrao h
  · rw [if_neg hc]
    exact obter_append_unico stats k k' v padrao h

/-- After `stats[k] = v`, looking up `k` yields `v`. -/
theorem obter_atribuir_self (stats : DicionarioStats) (k : String)
    (v padrao : ℚ) :
    obter (atribuir stats k v) k padrao = v := by
  unfold atribuir
  by_cases hc : (stats.map Prod.fst).contains k
  · rw [if_pos hc]
    induction stats with
    | nil => simp at hc
    | cons kv resto ih =>
      simp only [List.map_cons, List.contains_cons] at hc
      simp only [List.map_cons]
      by_cases hkv : kv.1 = k
      · rw [if_pos hkv]
        show (if k = k then v else _) = v
        rw [if_pos rfl]
      · rw [if_neg hkv]
        show (if kv.1 = k then kv.2
          else obter (resto.map fun kv => if kv.1 = k then (k, v) else kv) k padrao) = v
        rw [if_neg hkv]
        have hc' : (resto.map Prod.fst).contains k := by
          rcases Bool.or_eq_true_iff.mp hc with h1 | h1
          · exact absurd (beq_iff_eq.mp h1).symm hkv
          · exact h1
        exact ih hc'
  · rw [if_neg hc]
    induction stats with
    | nil =>
      show (if k = k then v else padrao) = v
      rw [if_pos rfl]
    | cons kv resto ih =>
      simp only [List.map_cons, List.contains_cons, Bool.or_eq_true_iff,
        not_or] at hc
      show (if kv.1 = k then kv.2 else obter (resto ++ [(k, v)]) k padrao) = v
      rw [if_neg (fun hh => hc.1 (beq_iff_eq.mpr hh.symm))]
      exact ih (by simpa using hc.2)

/-- C6: the composite score starts from the fixed baseline 50.0,
applies each rule's additive adjustment independently, and clamps the
final value into [0, 100]: every returned score lies in [0, 100], and
the clamping step maps the raw values 115 and −20 to 100 and 0
respectively. -/
theorem claim_C6_composite_score :
    (∀ stats : DicionarioStats,
      0 ≤ (frenesi_score stats).1 ∧ (frenesi_score stats).1 ≤ 100) ∧
    (∀ stats : DicionarioStats,
      (frenesi_score stats).1 = max 0 (min 100 (notaBruta stats))) ∧
    max (0 : ℚ) (min 100 115) = 100 ∧
    max (0 : ℚ) (min 100 (-20)) = 0 := by
  refine ⟨?_, fun stats => rfl, by norm_num, by norm_num⟩
  intro stats
  exact ⟨le_max_left 0 _, max_le (by norm_num) (min_le_left 100 _)⟩

/-- C7: band classification is an ordered rule table evaluated
top-to-bottom with the first matching predicate winning, hence
deterministic: equal rhythm index and switch count always give the
identical label, and the `Monótono` band wins even where the
`Ritmo moderado` predicate would also match. -/
theorem claim_C7_classification_determinism :
    (∀ (a b : ℚ) (x y : Nat), a = b → x = y →
      nivelMonotonia a x = nivelMonotonia b y) ∧
    (∀ (ir : ℚ) (sw : Nat), ir < 15/100 → sw ≤ 1 →
      nivelMonotonia ir sw = "Monótono") ∧
    (∀ (ir : ℚ) (sw : Nat), ¬(ir < 15/100 ∧ sw ≤ 1) → ir < 30/100 →
      nivelMonotonia ir sw = "Ritmo moderado") ∧
    (∀ (ir : ℚ) (sw : Nat), ¬(ir < 15/100 ∧ sw ≤ 1) → ¬ir < 30/100 →
      ir < 55/100 → nivelMonotonia ir sw = "Variado") ∧
    (∀ (ir : ℚ) (sw : Nat), ¬(ir < 15/100 ∧ sw ≤ 1) → ¬ir < 30/100 →
      ¬ir < 55/100 → nivelMonotonia ir sw = "Irregular") := by
  refine ⟨?_, ?_, ?_, ?_, ?_⟩
  · rintro a b x y rfl rfl
    rfl
  · intro ir sw h1 h2
    unfold nivelMonotonia
    rw [if_pos ⟨h1, h2⟩]
  · intro ir sw h1 h2
    unfold nivelMonotonia
    rw [if_neg h1, if_pos h2]
  · intro ir sw h1 h2 h3
    unfold nivelMonotonia
    rw [if_neg h1, if_neg h2, if_pos h3]
  · intro ir sw h1 h2 h3
    unfold nivelMonotonia
    rw [if_neg h1, if_neg h2, if_neg h3]

/-- Witness for C7: concrete classifications through the theorem. -/
theorem claim_C7_classification_determinism_witness :
    nivelMonotonia (1/10) 1 = nivelMonotonia (1/10) 1 ∧
    nivelMonotonia (1/10) 1 = "Monótono" ∧
    nivelMonotonia (2/10) 5 = "Ritmo moderado" :=
  ⟨claim_C7_classification_determinism.1 (1/10) (1/10) 1 1 rfl rfl,
    claim_C7_classification_determinism.2.1 (1/10) 1 (by norm_num) (by norm_num),
    claim_C7_classification_determinism.2.2.1 (2/10) 5
      (by intro h; exact absurd h.2 (by norm_num)) (by norm_num)⟩

/-- C10: `frenesi_score` writes exactly one key,
`'ratio_verbos_fortes'`, into the stats dict it receives (holding the
computed strong-verb ratio), leaves every other key's value unchanged,
and its returned score depends only on the values it reads from the
input dict. -/
theorem claim_C10_frame_effect :
    (∀ stats : DicionarioStats,
      (frenesi_score stats).2
        = atribuir stats "ratio_verbos_fortes" (ratioVerbosFortes stats)) ∧
    (∀ stats : DicionarioStats,
      obter (frenesi_score stats).2 "ratio_verbos_fortes" 0
        = ratioVerbosFortes stats) ∧
    (∀ (stats : DicionarioStats) (k : String) (padrao : ℚ),
      k ≠ "ratio_verbos_fortes" →
      obter (frenesi_score stats).2 k padrao = obter stats k padrao) ∧
    (∀ s₁ s₂ : DicionarioStats,
      (∀ k ∈ chavesLidas, obter s₁ k 0 = obter s₂ k 0) →
      (frenesi_score s₁).1 = (frenesi_score s₂).1) := by
  refine ⟨fun stats => rfl, ?_, ?_, ?_⟩
  · intro stats
    exact obter_atribuir_self stats "ratio_verbos_fortes" (ratioVerbosFortes stats) 0
  · intro stats k padrao hk
    exact obter_atribuir_ne stats "ratio_verbos_fortes" k (ratioVerbosFortes stats)
      padrao hk
  · intro s₁ s₂ h
    have httr := h "ttr" (by simp [chavesLidas])
    have hmtld := h "mtld" (by simp [chavesLidas])
    have hvf := h "verbos_fortes" (by simp [chavesLidas])
    have hvfr := h "verbos_fracos" (by simp [chavesLidas])
    have hadv := h "adv_mente" (by simp [chavesLidas])
    have htp := h "total_palavras" (by simp [chavesLidas])
    have hrep := h "indice_repeticao" (by simp [chavesLidas])
    have htmf := h "tamanho_medio_frase" (by simp [chavesLidas])
    show max 0 (min 100 (notaBruta s₁)) = max 0 (min 100 (notaBruta s₂))
    have hnb : notaBruta s₁ = notaBruta s₂ := by
      simp only [notaBruta, ratioVerbosFortes]
      rw [obter_atribuir_ne s₁ _ _ _ _ (by decide),
        obter_atribuir_ne s₁ _ _ _ _ (by decide),
        obter_atribuir_ne s₁ _ _ _ _ (by decide),
        obter_atribuir_ne s₁ _ _ _ _ (by decide),
        obter_atribuir_ne s₂ _ _ _ _ (by decide),
        obter_atribuir_ne s₂ _ _ _ _ (by decide),
        obter_atribuir_ne s₂ _ _ _ _ (by decide),
        obter_atribuir_ne s₂ _ _ _ _ (by decide),
        httr, hmtld, hvf, hvfr, hadv, htp, hrep, htmf]
    rw [hnb]

/-- Witness for C10: a dict with an extra unread key keeps that key's
value, and two dicts agreeing on the read keys get the same score. -/
theorem claim_C10_frame_effect_witness :
    obter (frenesi_score [("ttr", 3/10), ("extra", 7)]).2 "extra" 0
      = obter [("ttr", 3/10), ("extra", 7)] "extra" 0 ∧
    (frenesi_score [("ttr", 3/10), ("extra", 7)]).1
      = (frenesi_score [("ttr", 3/10)]).1 := by
  constructor
  · exact claim_C10_frame_effect.2.2.1 [("ttr", 3/10), ("extra", 7)] "extra" 0
      (by decide)
  · refine claim_C10_frame_effect.2.2.2 [("ttr", 3/10), ("extra", 7)]
      [("ttr", 3/10)] ?_
    intro k hk
    simp only [chavesLidas, List.mem_cons, List.not_mem_nil, or_false] at hk
    rcases hk with rfl | rfl | rfl | rfl | rfl | rfl | rfl | rfl <;> simp [obter]

/-- Folding `somaPasso` sums every field (ratio fields included). -/
theorem foldl_somaPasso (caps : List EstatisticasCapitulo) :
    ∀ init : EstatisticasCapitulo,
      caps.foldl somaPasso init =
        ⟨init.tokens + (caps.map (·.tokens)).sum,
          init.substantivos_total + (caps.map (·.substantivos_total)).sum,
          init.substantivos_abstratos + (caps.map (·.substantivos_abstratos)).sum,
          init.substantivos_concretos + (caps.map (·.substantivos_concretos)).sum,
          init.pct_abstratos + (caps.map (·.pct_abstratos)).sum,
          init.pct_concretos + (caps.map (·.pct_concretos)).sum,
          init.verbos_total + (caps.map (·.verbos_total)).sum,
          init.verbos_gerundio + (caps.map (·.verbos_gerundio)).sum,
          init.pct_gerundio + (caps.map (·.pct_gerundio)).sum,
          init.densidade_verbal_pct + (caps.map (·.densidade_verbal_pct)).sum,
          init.nominalizacoes + (caps.map (·.nominalizacoes)).sum,
          init.nominalizacoes_por_10k + (caps.map (·.nominalizacoes_por_10k)).sum⟩ := by
  induction caps with
  | nil =>
    intro init
    simp only [List.foldl_nil, List.map_nil, List.sum_nil, add_zero]
  | cons c cs ih =>
    intro init
    rw [List.foldl_cons, ih]
    simp only [somaPasso, List.map_cons, List.sum_cons]
    congr 1 <;> ring

/-- The summed `glob` dict in closed form. -/
theorem somaCampos_eq (caps : List EstatisticasCapitulo) :
    somaCampos caps =
      ⟨(caps.map (·.tokens)).sum,
        (caps.map (·.substantivos_total)).sum,
        (caps.map (·.substantivos_abstratos)).sum,
        (caps.map (·.substantivos_concretos)).sum,
        (caps.map (·.pct_abstratos)).sum,
        (caps.map (·.pct_concretos)).sum,
        (caps.map (·.verbos_total)).sum,
        (caps.map (·.verbos_gerundio)).sum,
        (caps.map (·.pct_gerundio)).sum,
        (caps.map (·.densidade_verbal_pct)).sum,
        (caps.map (·.nominalizacoes)).sum,
        (caps.map (·.nominalizacoes_por_10k)).sum⟩ := by
  unfold somaCampos
  rw [foldl_somaPasso]
  simp only [estatZero, zero_add]

/-- C3: whole-document stats are built by summing every count field
over the chapters' records and recomputing every ratio field from the
summed numerator and denominator — never by averaging per-chapter
ratios — with `0.0` whenever the summed denominator is zero; and the
recomputed global ratio differs in general from the mean of the
per-chapter ratios. -/
theorem claim_C3_aggregation :
    (∀ caps : List EstatisticasCapitulo,
      (agregarGlobais caps).tokens = (caps.map (·.tokens)).sum ∧
      (agregarGlobais caps).substantivos_total
        = (caps.map (·.substantivos_total)).sum ∧
      (agregarGlobais caps).substantivos_abstratos
        = (caps.map (·.substantivos_abstratos)).sum ∧
      (agregarGlobais caps).substantivos_concretos
        = (caps.map (·.substantivos_concretos)).sum ∧
      (agregarGlobais caps).verbos_total = (caps.map (·.verbos_total)).sum ∧
      (agregarGlobais caps).verbos_gerundio
        = (caps.map (·.verbos_gerundio)).sum ∧
      (agregarGlobais caps).nominalizacoes
        = (caps.map (·.nominalizacoes)).sum ∧
      (agregarGlobais caps).pct_abstratos
        = (if (caps.map (·.substantivos_total)).sum ≠ 0 then
            (caps.map (·.substantivos_abstratos)).sum
              / (caps.map (·.substantivos_total)).sum * 100 else 0) ∧
      (agregarGlobais caps).pct_concretos
        = (if (caps.map (·.substantivos_total)).sum ≠ 0 then
            (caps.map (·.substantivos_concretos)).sum
              / (caps.map (·.substantivos_total)).sum * 100 else 0) ∧
      (agregarGlobais caps).pct_gerundio
        = (if (caps.map (·.verbos_total)).sum ≠ 0 then
            (caps.map (·.verbos_gerundio)).sum
              / (caps.map (·.verbos_total)).sum * 100 else 0) ∧
      (agregarGlobais caps).densidade_verbal_pct
        = (if (caps.map (·.tokens)).sum ≠ 0 then
            (caps.map (·.verbos_total)).sum
              / (caps.map (·.tokens)).sum * 100 else 0) ∧
      (agregarGlobais caps).nominalizacoes_por_10k
        = (if (caps.map (·.tokens)).sum ≠ 0 then
            (caps.map (·.nominalizacoes)).sum
              / (caps.map (·.tokens)).sum * 10000 else 0)) ∧
    (agregarGlobais [estatisticasDeContagens 10 10 5 5 0 0 0,
        estatisticasDeContagens 100 100 10 90 0 0 0]).pct_abstratos
      ≠ ((estatisticasDeContagens 10 10 5 5 0 0 0).pct_abstratos
          + (estatisticasDeContagens 100 100 10 90 0 0 0).pct_abstratos) / 2 := by
  constructor
  · intro caps
    simp [agregarGlobais, somaCampos_eq caps]
  · simp only [agregarGlobais, somaCampos_eq, estatisticasDeContagens,
      List.map_cons, List.map_nil, List.sum_cons, List.sum_nil]
    norm_num

/-- C5 as stated is false on the code: on a text carrying exactly the
spellings `Kaelin` (9×), `kaelin` (1×), `Bryn` (2×), `Brynn` (1×) as
whole words, the checker with cutoff 5 reports **no** inconsistent
group at all — not one `kaelin` group with 10 occurrences — because
the name regex `\b[A-Z][a-z]{2,}...` never collects the lower-case
spelling `kaelin`, and `Bryn`/`Brynn` fall into distinct base
groups. -/
theorem claim_C5_counterexample :
    contarOcorrencias textoCenarioNomes.data "Kaelin".data = 9 ∧
    contarOcorrencias textoCenarioNomes.data "kaelin".data = 1 ∧
    contarOcorrencias textoCenarioNomes.data "Bryn".data = 2 ∧
    contarOcorrencias textoCenarioNomes.data "Brynn".data = 1 ∧
    verificarConsistenciaNomes textoCenarioNomes 5 = [] := by
  refine ⟨?_, ?_, ?_, ?_, ?_⟩ <;> rfl

/-- C5 amended: on the scenario text the regex collects only the
capitalized spellings (`Kaelin` 9×, `Bryn` 2×, `Brynn` 1×); grouping
by lowercased base yields `kaelin` with one spelling and 9
occurrences (cutoff met, but a single variant), and `bryn`/`brynn`
as separate bases with 2 and 1 occurrences (below the cutoff 5), so
the checker reports no inconsistent group. -/
theorem claim_C5_name_consistency :
    (encontrarNomes textoCenarioNomes.data).map String.mk
      = ["Kaelin", "Kaelin", "Kaelin", "Kaelin", "Kaelin", "Kaelin",
         "Kaelin", "Kaelin", "Kaelin", "Bryn", "Bryn", "Brynn"] ∧
    agrupaVariantes ((encontrarNomes textoCenarioNomes.data).map String.mk)
      = [("kaelin", [("Kaelin", 9)]), ("bryn", [("Bryn", 2)]),
         ("brynn", [("Brynn", 1)])] ∧
    verificarConsistenciaNomes textoCenarioNomes 5 = [] := by
  refine ⟨?_, ?_, ?_⟩ <;> rfl

theorem partesSplit_ne_nil (ls : List String) : partesSplit ls ≠ [] := by
  induction ls with
  | nil => simp [partesSplit]
  | cons l ls ih =>
    by_cases h : ehCabecalhoCapitulo l
    · simp [partesSplit, h]
    · rcases hps : partesSplit ls with _ | ⟨p, ps⟩
      · exact absurd hps ih
      · simp [partesSplit, h, hps]

/-- Split `re.split` with one capture group returns `2k + 1` parts for `k`
heading matches. -/
theorem partesSplit_length (ls : List String) :
    (partesSplit ls).length
      = 2 * ls.countP (fun l => ehCabecalhoCapitulo l) + 1 := by
  induction ls with
  | nil => simp [partesSplit]
  | cons l ls ih =>
    by_cases h : ehCabecalhoCapitulo l
    · rw [show partesSplit (l :: ls) = "" :: l :: partesSplit ls from by
        simp [partesSplit, h]]
      rw [List.countP_cons]
      simp only [h, if_true, List.length_cons, ih]
      ring
    · rcases hps : partesSplit ls with _ | ⟨p, ps⟩
      · exact absurd hps (partesSplit_ne_nil ls)
      · rw [show partesSplit (l :: ls) = (l ++ "\n" ++ p) :: ps from by
          simp [partesSplit, h, hps]]
        have hlen := ih
        rw [hps] at hlen
        rw [List.countP_cons]
        simp only [h, if_false, List.length_cons, add_zero]
        simpa using hlen

/-- The heading/body pairs carry exactly the stripped heading lines,
in order. -/
theorem paresCapitulos_titulos (ls : List String) :
    (paresCapitulos ((partesSplit ls).drop 1)).map Capitulo.titulo
      = (ls.filter (fun l => ehCabecalhoCapitulo l)).map aparar := by
  induction ls with
  | nil => rfl
  | cons l ls ih =>
    by_cases h : ehCabecalhoCapitulo l
    · rcases hps : partesSplit ls with _ | ⟨p, ps⟩
      · exact absurd hps (partesSplit_ne_nil ls)
      · rw [show partesSplit (l :: ls) = "" :: l :: partesSplit ls from by
          simp [partesSplit, h]]
        rw [hps]
        have ihr := ih
        rw [hps] at ihr
        simp only [List.drop_succ_cons, List.drop_zero] at ihr
        show aparar l :: (paresCapitulos ps).map Capitulo.titulo = _
        rw [List.filter_cons_of_pos h, List.map_cons, ihr]
    · rcases hps : partesSplit ls with _ | ⟨p, ps⟩
      · exact absurd hps (partesSplit_ne_nil ls)
      · rw [show partesSplit (l :: ls) = (l ++ "\n" ++ p) :: ps from by
          simp [partesSplit, h, hps]]
        have ihr := ih
        rw [hps] at ihr
        simp only [List.drop_succ_cons, List.drop_zero] at ihr
        rw [List.filter_cons_of_neg (by simpa using h)]
        simpa using ihr

/-- Stripping is unaffected by a trailing newline (list level). -/
theorem stripData_append_newline (d : List Char) :
    (((d ++ ['\n']).dropWhile Char.isWhitespace).reverse.dropWhile
        Char.isWhitespace).reverse
      = ((d.dropWhile Char.isWhitespace).reverse.dropWhile
          Char.isWhitespace).reverse := by
  induction d with
  | nil => rfl
  | cons c d ih =>
    by_cases hc : Char.isWhitespace c
    · simp only [List.cons_append, List.dropWhile_cons_of_pos hc]
      exact ih
    · simp only [List.cons_append, List.dropWhile_cons_of_neg hc]
      simp only [List.reverse_cons, List.reverse_append, List.reverse_singleton,
        List.reverse_nil, List.nil_append, List.append_assoc,
        List.singleton_append, List.cons_append]
      rw [List.dropWhile_cons_of_pos (show Char.isWhitespace '\n' = true from rfl)]

/-- Stripping is unaffected by a trailing newline. -/
theorem aparar_append_newline (s : String) : aparar (s ++ "\n") = aparar s := by
  unfold aparar
  congr 1
  show (((s.data ++ ['\n']).dropWhile Char.isWhitespace).reverse.dropWhile
      Char.isWhitespace).reverse = _
  exact stripData_append_newline s.data

/-- A non-empty run of lines joined by `partesSplit` is the canonical
newline join followed by one trailing newline. -/
theorem juntarCauda_eq (xs : List String) (hx : xs ≠ []) :
    juntarCauda xs = juntarLinhas xs ++ "\n" := by
  induction xs with
  | nil => exact absurd rfl hx
  | cons x xs ih =>
    cases xs with
    | nil =>
      show x ++ "\n" ++ "" = x ++ "\n"
      rw [String.append_empty]
    | cons y ys =>
      show x ++ "\n" ++ juntarCauda (y :: ys)
        = (x ++ "\n" ++ juntarLinhas (y :: ys)) ++ "\n"
      rw [ih (by simp), ← String.append_assoc]

/-- After stripping, the two joins agree. -/
theorem aparar_juntarCauda (xs : List String) :
    aparar (juntarCauda xs) = aparar (juntarLinhas xs) := by
  cases xs with
  | nil => rfl
  | cons x xs =>
    rw [juntarCauda_eq (x :: xs) (by simp)]
    exact aparar_append_newline _

/-- The first `re.split` part is the joined run of lines before the
first heading. -/
theorem partesSplit_headD (ls : List String) :
    (partesSplit ls).headD ""
      = juntarCauda (ls.takeWhile (fun x => !ehCabecalhoCapitulo x)) := by
  induction ls with
  | nil => rfl
  | cons l ls ih =>
    by_cases h : ehCabecalhoCapitulo l
    · rw [show partesSplit (l :: ls) = "" :: l :: partesSplit ls from by
        simp [partesSplit, h]]
      rw [show (l :: ls).takeWhile (fun x => !ehCabecalhoCapitulo x) = [] from by
        simp [List.takeWhile_cons, h]]
      rfl
    · obtain ⟨p0, ps0, hrest⟩ :=
        List.exists_cons_of_ne_nil (partesSplit_ne_nil ls)
      rw [show partesSplit (l :: ls) = (l ++ "\n" ++ p0) :: ps0 from by
        simp [partesSplit, h, hrest]]
      rw [show (l :: ls).takeWhile (fun x => !ehCabecalhoCapitulo x)
          = l :: ls.takeWhile (fun x => !ehCabecalhoCapitulo x) from by
        simp [List.takeWhile_cons, h]]
      show l ++ "\n" ++ p0
        = l ++ "\n" ++ juntarCauda (ls.takeWhile (fun x => !ehCabecalhoCapitulo x))
      rw [← ih, hrest]
      rfl

/-- The heading/body pairs are exactly the segments the claim
describes: per heading line, the stripped heading as title and the
stripped run of lines up to the next heading as text. -/
theorem paresCapitulos_segmentos (ls : List String) :
    paresCapitulos ((partesSplit ls).drop 1) = segmentosEsperados ls := by
  induction ls with
  | nil => rfl
  | cons l ls ih =>
    by_cases h : ehCabecalhoCapitulo l
    · obtain ⟨p0, ps0, hrest⟩ :=
        List.exists_cons_of_ne_nil (partesSplit_ne_nil ls)
      rw [show partesSplit (l :: ls) = "" :: l :: partesSplit ls from by
        simp [partesSplit, h]]
      rw [hrest]
      show (⟨aparar l, aparar p0⟩ : Capitulo) :: paresCapitulos ps0
        = segmentosEsperados (l :: ls)
      rw [show segmentosEsperados (l :: ls)
          = ⟨aparar l, aparar (juntarLinhas
              (ls.takeWhile (fun x => !ehCabecalhoCapitulo x)))⟩
            :: segmentosEsperados ls from by
        simp [segmentosEsperados, h]]
      have hp0 : p0 = juntarCauda (ls.takeWhile (fun x => !ehCabecalhoCapitulo x)) := by
        have hh := partesSplit_headD ls
        rw [hrest] at hh
        simpa using hh
      have htail := ih
      rw [hrest] at htail
      simp only [List.drop_succ_cons, List.drop_zero] at htail
      rw [hp0, aparar_juntarCauda, htail]
    · obtain ⟨p0, ps0, hrest⟩ :=
        List.exists_cons_of_ne_nil (partesSplit_ne_nil ls)
      rw [show partesSplit (l :: ls) = (l ++ "\n" ++ p0) :: ps0 from by
        simp [partesSplit, h, hrest]]
      rw [show segmentosEsperados (l :: ls) = segmentosEsperados ls from by
        simp [segmentosEsperados, h]]
      have htail := ih
      rw [hrest] at htail
      simp only [List.drop_succ_cons, List.drop_zero] at htail
      exact htail

/-- C9: the chapter splitter always returns at least one segment: with
no heading line, a single segment titled `Texto completo` holding the
whole stripped text; with headings, an optional `Pré-texto` segment
holding the stripped text before the first heading (present iff that
text is non-empty) followed, for every input, by one segment per
heading line whose title is that (stripped) heading and whose text is
the stripped run of lines up to the next heading
(`segmentosEsperados`); the titles consequence and a fully concrete
split are stated as well. -/
theorem claim_C9_chapter_split (linhas : List String) :
    split_capitulos linhas ≠ [] ∧
    ((∀ l ∈ linhas, ¬ ehCabecalhoCapitulo l) →
      split_capitulos linhas
        = [⟨"Texto completo", aparar (String.intercalate "\n" linhas)⟩]) ∧
    ((∃ l ∈ linhas, ehCabecalhoCapitulo l) →
      split_capitulos linhas
        = (if aparar (juntarLinhas
              (linhas.takeWhile (fun x => !ehCabecalhoCapitulo x))) ≠ "" then
            [⟨"Pré-texto", aparar (juntarLinhas
              (linhas.takeWhile (fun x => !ehCabecalhoCapitulo x)))⟩]
          else [])
          ++ segmentosEsperados linhas) ∧
    ((∃ l ∈ linhas, ehCabecalhoCapitulo l) →
      (split_capitulos linhas).map Capitulo.titulo
        = (if aparar ((partesSplit linhas).headD "") ≠ "" then ["Pré-texto"]
            else [])
          ++ (linhas.filter (fun l => ehCabecalhoCapitulo l)).map aparar) ∧
    split_capitulos ["intro", "Capítulo 1", "corpo a", "corpo b",
        "CAPÍTULO 2", "fim"]
      = [⟨"Pré-texto", "intro"⟩, ⟨"Capítulo 1", "corpo a\ncorpo b"⟩,
         ⟨"CAPÍTULO 2", "fim"⟩] := by
  refine ⟨?_, ?_, ?_, ?_, by rfl⟩
  · by_cases hlen : (partesSplit linhas).length ≤ 1
    · simp [split_capitulos, hlen]
    · rcases hps : partesSplit linhas with _ | ⟨a, _ | ⟨b, _ | ⟨c, rest⟩⟩⟩
      · exact absurd hps (partesSplit_ne_nil linhas)
      · rw [hps] at hlen
        exact absurd (by simp) hlen
      · have hodd := partesSplit_length linhas
        rw [hps] at hodd
        simp only [List.length_cons, List.length_nil] at hodd
        omega
      · simp [split_capitulos, hps, hlen, paresCapitulos]
  · intro hno
    have hc : linhas.countP (fun l => ehCabecalhoCapitulo l) = 0 :=
      List.countP_eq_zero.mpr (fun a ha => by simpa using hno a ha)
    have hlen : (partesSplit linhas).length ≤ 1 := by
      rw [partesSplit_length, hc]
    simp [split_capitulos, hlen]
  · rintro ⟨l0, hl0, hheads⟩
    have hc : 0 < linhas.countP (fun l => ehCabecalhoCapitulo l) :=
      List.countP_pos_iff.mpr ⟨l0, hl0, hheads⟩
    have hlen : ¬(partesSplit linhas).length ≤ 1 := by
      rw [partesSplit_length]
      omega
    simp only [split_capitulos, if_neg hlen]
    rw [partesSplit_headD, aparar_juntarCauda, paresCapitulos_segmentos]
  · rintro ⟨l0, hl0, hheads⟩
    have hc : 0 < linhas.countP (fun l => ehCabecalhoCapitulo l) :=
      List.countP_pos_iff.mpr ⟨l0, hl0, hheads⟩
    have hlen : ¬(partesSplit linhas).length ≤ 1 := by
      rw [partesSplit_length]
      omega
    simp only [split_capitulos, if_neg hlen]
    rw [List.map_append]
    congr 1
    · by_cases hpre : aparar ((partesSplit linhas).headD "") ≠ ""
      · rw [if_pos hpre, if_pos hpre]
        rfl
      · rw [if_neg hpre, if_neg hpre]
        rfl
    · exact paresCapitulos_titulos linhas

/-- Witness for C9: a heading-free text collapses to `Texto completo`;
`["Capítulo 1", "corpo"]` splits into exactly the expected segments
(no `Pré-texto`, body `corpo`) and yields the segment titles
`["Capítulo 1"]`. -/
theorem claim_C9_chapter_split_witness :
    split_capitulos ["um", "dois"]
      = [⟨"Texto completo", aparar (String.intercalate "\n" ["um", "dois"])⟩] ∧
    split_capitulos ["Capítulo 1", "corpo"]
      = (if aparar (juntarLinhas
            ((["Capítulo 1", "corpo"] : List String).takeWhile
              (fun x => !ehCabecalhoCapitulo x))) ≠ "" then
          [⟨"Pré-texto", aparar (juntarLinhas
            ((["Capítulo 1", "corpo"] : List String).takeWhile
              (fun x => !ehCabecalhoCapitulo x)))⟩]
        else [])
        ++ segmentosEsperados ["Capítulo 1", "corpo"] ∧
    (split_capitulos ["Capítulo 1", "corpo"]).map Capitulo.titulo
      = (if aparar ((partesSplit ["Capítulo 1", "corpo"]).headD "") ≠ ""
          then ["Pré-texto"] else [])
        ++ ((["Capítulo 1", "corpo"].filter
            (fun l => ehCabecalhoCapitulo l)).map aparar) :=
  ⟨(claim_C9_chapter_split ["um", "dois"]).2.1 (by decide),
    (claim_C9_chapter_split ["Capítulo 1", "corpo"]).2.2.1
      ⟨"Capítulo 1", by simp, by decide⟩,
    (claim_C9_chapter_split ["Capítulo 1", "corpo"]).2.2.2.1
      ⟨"Capítulo 1", by simp, by decide⟩⟩

end Detetor
